import Mathlib

/-!
Shallow embedding of the `dns-encryption-simulator` repository (Go),
covering the subdomain generator, the authoritative DNS responder,
the beacon scheduler and the three DNS client transports.

Go strings are modelled as `List Char` (all names involved are ASCII,
so byte length and character count coincide); machine integers are
modelled as `Nat`/`Int`; fallible Go functions returning
`(value, error)` are modelled with `Option`.
-/

namespace DNSSim

/-- Convert a string literal to the `List Char` representation used
throughout the embedding. -/
def str (s : String) : List Char := s.data

/-! ## Subdomain generator (`generator.go`, `SubdomainGenerator`)

Go's `encoding/base32` standard encoding without padding is modelled
bit-for-bit: bytes are flattened to bits (most-significant first), the
bit string is zero-padded to a multiple of five bits and each five-bit
group indexes the standard base-32 alphabet `A..Z2..7`. -/

/-- The eight bits of a byte, most significant first
(models how `encoding/base32` consumes input bytes). -/
def byteBits (b : Nat) : List Bool :=
  [b.testBit 7, b.testBit 6, b.testBit 5, b.testBit 4,
   b.testBit 3, b.testBit 2, b.testBit 1, b.testBit 0]

/-- All bits of a byte sequence, in stream order. -/
def bytesBits : List Nat → List Bool
  | [] => []
  | b :: bs => byteBits b ++ bytesBits bs

/-- Zero-pad a bit string on the right to a multiple of five bits
(what `base32.NoPadding` does to the final partial quantum). -/
def pad5 (bits : List Bool) : List Bool :=
  bits ++ List.replicate ((5 - bits.length % 5) % 5) false

/-- Split a bit string into consecutive five-bit groups.  The first
argument is fuel, instantiated with the length of the list so the
function is structurally recursive. -/
def chunk5 : Nat → List Bool → List (List Bool)
  | 0, _ => []
  | _, [] => []
  | n + 1, l => l.take 5 :: chunk5 n (l.drop 5)

/-- Big-endian value of a bit string. -/
def bitsVal : List Bool → Nat
  | [] => 0
  | b :: bs => (if b then 2 ^ bs.length else 0) + bitsVal bs

/-- The standard base-32 alphabet used by `base32.StdEncoding`. -/
def upAlphabet : List Char := str "ABCDEFGHIJKLMNOPQRSTUVWXYZ234567"

/-- The lowercase alphabet the generator's output is drawn from:
lowercase letters `a`-`z` and digits `2`-`7`. -/
def lowAlphabet : List Char := str "abcdefghijklmnopqrstuvwxyz234567"

/-- `base32.StdEncoding.WithPadding(base32.NoPadding).EncodeToString`,
modelled from the Go standard library: standard base-32, no padding. -/
def base32Encode (bytes : List Nat) : List Char :=
  let bits := pad5 (bytesBits bytes)
  (chunk5 bits.length bits).map (fun c => upAlphabet.getD (bitsVal c) 'A')

/-- `SubdomainGenerator.randomLength`: the random draw
(`rand.Int` in `[0, maxLength-minLength+1)`) is passed explicitly. -/
def randomLength (minLength maxLength draw : Nat) : Nat :=
  if minLength = maxLength then minLength else minLength + draw

/-- Byte count requested by `SubdomainGenerator.Generate`:
`((length * 5) / 8) + 1`. -/
def bytesNeeded (length : Nat) : Nat := length * 5 / 8 + 1

/-- `SubdomainGenerator.Generate`, with the randomness (the length draw
and the bytes filled in by `rand.Read`) passed explicitly: encode the
random bytes in base-32, lowercase, and truncate to the target length
(`List.take` is the identity when the string is already short enough,
exactly like the `len(encoded) > length` guard in Go). -/
def generate (minLength maxLength draw : Nat) (randomBytes : List Nat) : List Char :=
  let length := randomLength minLength maxLength draw
  let encoded := base32Encode randomBytes
  let lowered := encoded.map Char.toLower
  lowered.take length

/-- `SubdomainGenerator.GenerateWithDomain`, factored over the already
generated subdomain label: build `subdomain + "." + domain` and fail
(`none`) when the FQDN exceeds 253 characters. -/
def generateWithDomain (subdomain domain : List Char) : Option (List Char) :=
  let fqdn := subdomain ++ '.' :: domain
  if fqdn.length > 253 then none else some fqdn

/-! ## IP addresses

`net.ParseIP` and `net.IP.To4`, modelled from the Go standard library:
dotted-quad IPv4 (decimal octets `0..255`, no leading zeros) and
RFC 4291 hex IPv6 with at most one `::`; the rare embedded-IPv4-in-IPv6
textual form is not modelled.  `To4` yields the four IPv4 bytes for an
IPv4 address or an IPv4-mapped (`::ffff:a.b.c.d`) IPv6 address, and
`none` (Go `nil`) otherwise. -/

/-- A parsed IP: either four IPv4 octets or sixteen IPv6 bytes. -/
inductive IPAddr
  | v4 (a b c d : Nat)
  | v6 (bytes : List Nat)
deriving DecidableEq

/-- Four IPv4 octets (the result of a successful `To4`). -/
structure IPv4 where
  a : Nat
  b : Nat
  c : Nat
  d : Nat
deriving DecidableEq

/-- Split a character list on a separator character. -/
def splitOnChar (sep : Char) : List Char → List (List Char)
  | [] => [[]]
  | a :: as =>
    if a = sep then [] :: splitOnChar sep as
    else
      match splitOnChar sep as with
      | [] => [[a]]
      | h :: t => (a :: h) :: t

/-- One decimal octet of a dotted-quad address: one to three digits,
no leading zero, value at most 255. -/
def parseOctet (l : List Char) : Option Nat :=
  if l.length = 0 ∨ l.length > 3 then none
  else if ¬ l.all Char.isDigit then none
  else if 1 < l.length ∧ l.headD '0' = '0' then none
  else
    let v := l.foldl (fun a c => 10 * a + (c.toNat - '0'.toNat)) 0
    if v ≤ 255 then some v else none

/-- Dotted-quad IPv4 parsing. -/
def parseIPv4 (l : List Char) : Option IPAddr :=
  match splitOnChar '.' l with
  | [a, b, c, d] =>
    match parseOctet a, parseOctet b, parseOctet c, parseOctet d with
    | some x, some y, some z, some w => some (.v4 x y z w)
    | _, _, _, _ => none
  | _ => none

/-- The value of one hex digit, if any. -/
def hexVal (c : Char) : Option Nat :=
  if c.isDigit then some (c.toNat - '0'.toNat)
  else if 'a' ≤ c ∧ c ≤ 'f' then some (c.toNat - 'a'.toNat + 10)
  else if 'A' ≤ c ∧ c ≤ 'F' then some (c.toNat - 'A'.toNat + 10)
  else none

/-- A 16-bit IPv6 group: one to four hex digits. -/
def parseHexGroup (l : List Char) : Option Nat :=
  if l.length = 0 ∨ l.length > 4 then none
  else
    match l.mapM hexVal with
    | none => none
    | some ds => some (ds.foldl (fun a d => 16 * a + d) 0)

/-- Split on the first-level occurrences of the `::` separator. -/
def splitOnDC : List Char → List (List Char)
  | [] => [[]]
  | ':' :: ':' :: rest => [] :: splitOnDC rest
  | a :: rest =>
    match splitOnDC rest with
    | [] => [[a]]
    | h :: t => (a :: h) :: t

/-- Hex groups of one side of a `::`, empty side meaning no groups. -/
def sideGroups (part : List Char) : Option (List Nat) :=
  if part.isEmpty then some []
  else (splitOnChar ':' part).mapM parseHexGroup

/-- Sixteen address bytes from eight 16-bit groups. -/
def v6FromGroups (gs : List Nat) : IPAddr :=
  .v6 (gs.flatMap fun g => [g / 256, g % 256])

/-- Hex IPv6 parsing: eight groups, or at most seven groups around a
single `::` which expands with zero groups. -/
def parseIPv6 (l : List Char) : Option IPAddr :=
  match splitOnDC l with
  | [whole] =>
    match (splitOnChar ':' whole).mapM parseHexGroup with
    | some gs => if gs.length = 8 then some (v6FromGroups gs) else none
    | none => none
  | [left, right] =>
    match sideGroups left, sideGroups right with
    | some lg, some rg =>
      if lg.length + rg.length ≤ 7 then
        some (v6FromGroups
          (lg ++ List.replicate (8 - lg.length - rg.length) 0 ++ rg))
      else none
    | _, _ => none
  | _ => none

/-- The first `.` or `:` decides the address family, as in Go's scan. -/
def firstSpecial : List Char → Option Char
  | [] => none
  | c :: cs => if c = '.' ∨ c = ':' then some c else firstSpecial cs

/-- `net.ParseIP`. -/
def parseIP (l : List Char) : Option IPAddr :=
  match firstSpecial l with
  | some '.' => parseIPv4 l
  | some ':' => parseIPv6 l
  | _ => none

/-- `net.IP.To4`: the IPv4 form of an address, `none` when it has none. -/
def to4 : IPAddr → Option IPv4
  | .v4 a b c d => some ⟨a, b, c, d⟩
  | .v6 bs =>
    match bs with
    | [0, 0, 0, 0, 0, 0, 0, 0, 0, 0, 255, 255, a, b, c, d] => some ⟨a, b, c, d⟩
    | _ => none

/-! ## Authoritative responder (`server.go`)

The logging, statistics and socket plumbing of `Server` are pure
side effects and are omitted; the model keeps the served domain, the
response IP and the TTL, which fully determine the response content. -/

/-- DNS query types the responder dispatches on. -/
inductive QType
  | A
  | AAAA
  | NS
  | other (code : Nat)
deriving DecidableEq

/-- A DNS question: queried name and query type. -/
structure Question where
  name : List Char
  qtype : QType
deriving DecidableEq

/-- Response codes used by the responder. -/
inductive Rcode
  | success
  | nameError
deriving DecidableEq

/-- Answer resource records the responder can synthesize.  The A
record's address is `Option IPv4` because Go's `To4()` can return a
`nil` address that is nevertheless put into the record. -/
inductive RR
  | A (name : List Char) (ttl : Nat) (addr : Option IPv4)
  | NS (name : List Char) (ttl : Nat) (ns : List Char)
deriving DecidableEq

/-- `dns.Fqdn`: ensure a trailing dot. -/
def fqdn (l : List Char) : List Char :=
  if l.getLast? = some '.' then l else l ++ ['.']

/-- Drop the trailing dot of a fully-qualified name, if present. -/
def stripDot (l : List Char) : List Char :=
  if l.getLast? = some '.' then l.dropLast else l

/-- The labels of a domain name, lowercased (miekg's label comparison
is case-insensitive). -/
def lowerLabels (l : List Char) : List (List Char) :=
  (splitOnChar '.' (stripDot l)).map (List.map Char.toLower)

/-- `dns.IsSubDomain parent child`: the parent's labels are a suffix of
the child's labels (true also on equality). -/
def isSubDomain (parent child : List Char) : Bool :=
  (lowerLabels parent).isSuffixOf (lowerLabels child)

/-- The responder: served domain (fully qualified), response IP, TTL. -/
structure Server where
  domain : List Char
  responseIP : IPAddr
  ttl : Nat
deriving DecidableEq

/-- `NewServer`: parse the response IP (error when unparseable) and
normalize the domain to fully-qualified form. -/
def newServer (domain responseIP : List Char) (ttl : Nat) : Option Server :=
  match parseIP responseIP with
  | none => none
  | some ip => some ⟨fqdn domain, ip, ttl⟩

/-- `Server.isOurDomain`: exact match with the served domain, or a
subdomain of it, after normalizing the queried name. -/
def isOurDomain (s : Server) (name : List Char) : Bool :=
  let n := fqdn name
  n == s.domain || isSubDomain s.domain n

/-- `Server.handleQuestion`: ignore names outside the served domain;
answer type-A with the configured IP (via `To4`) and type-NS with
`ns1.<domain>`; append nothing for AAAA or other types. -/
def handleQuestion (s : Server) (answers : List RR) (q : Question) : List RR :=
  if isOurDomain s q.name then
    match q.qtype with
    | .A => answers ++ [.A q.name s.ttl (to4 s.responseIP)]
    | .AAAA => answers
    | .NS => answers ++ [.NS q.name s.ttl (str "ns1." ++ s.domain)]
    | .other _ => answers
  else answers

/-- `Server.ServeDNS`: process every question, then set the response
code from whether any answer was appended. -/
def serveDNS (s : Server) (questions : List Question) : List RR × Rcode :=
  let answers := questions.foldl (handleQuestion s) []
  (answers, if answers.length > 0 then .success else .nameError)

/-! ## Beacon scheduler (`beacon.go`) -/

/-- One nanosecond-denominated second, like Go's `time.Second`
(durations are `int64` nanoseconds, modelled as `Int`). -/
def second : Int := 1000000000

/-- `Beacon.calculateDelay`, with the secure random draw
(`rand.Int` in `[0, 2*jitter)`) passed explicitly: zero jitter gives
the base delay; otherwise shift the draw to `[-jitter, +jitter]`, add
it to the base delay and clamp the result upward to one second. -/
def calculateDelay (baseDelay jitter : Int) (draw : Int) : Int :=
  if jitter = 0 then baseDelay
  else
    let maxJitter := jitter
    let jitterValue := draw - maxJitter
    let finalDelay := baseDelay + jitterValue
    if finalDelay < second then second else finalDelay

/-- What one iteration of the beacon loop observes: whether the
cancellation signal is set at the loop top, whether subdomain
generation succeeds, and whether cancellation arrives during the
inter-query delay wait. -/
structure BeaconEvent where
  cancelledAtTop : Bool
  genOk : Bool
  cancelledMidDelay : Bool
deriving DecidableEq

/-- Result of running the beacon loop against a finite event trace:
`stopped qc qi` means the loop returned the context's cancellation
error after reporting `qc` iterations, having issued `qi` DNS queries;
`running` means the trace was exhausted with the loop still going. -/
inductive BeaconResult
  | stopped (queryCount queriesIssued : Nat)
  | running (queryCount queriesIssued : Nat)
deriving DecidableEq

/-- `Beacon.Start`: check cancellation at the loop top, increment the
iteration counter, generate a subdomain (on failure `continue` directly
to the next iteration), issue the query, then wait out the jittered
delay racing against cancellation. -/
def beaconRun (queryCount queriesIssued : Nat) :
    List BeaconEvent → BeaconResult
  | [] => .running queryCount queriesIssued
  | ev :: rest =>
    if ev.cancelledAtTop then .stopped queryCount queriesIssued
    else
      if ev.genOk then
        if ev.cancelledMidDelay then
          .stopped (queryCount + 1) (queriesIssued + 1)
        else beaconRun (queryCount + 1) (queriesIssued + 1) rest
      else beaconRun (queryCount + 1) queriesIssued rest

/-! ## DNS clients (`query.go`, `doh.go`, `dot.go`)

The three `Query` implementations are modelled as pure functions of
the transport outcome.  `QueryResult.answers` is an `Option` so that a
Go `nil` slice (`none`) is distinguished from an allocated empty slice
(`some []`); answer entries are the extracted A-record addresses. -/

/-- `QueryResult`, the value object every transport returns. -/
structure QueryResult where
  domain : List Char
  response : Option (List RR)
  rtt : Int
  server : List Char
  error : Option (List Char)
  answers : Option (List (Option IPv4))
  queryTime : Int
deriving DecidableEq

/-- Extract the A-record addresses of an answer section (the loop that
appends `a.A.String()` for each `*dns.A`). -/
def answersOf (rrs : List RR) : List (Option IPv4) :=
  rrs.filterMap fun rr =>
    match rr with
    | .A _ _ addr => some addr
    | .NS _ _ _ => none

/-- Outcome of one `dns.Client.Exchange` call: the response message
(`none` models a `nil` message), the measured round-trip time, and the
transport error if any. -/
structure ExchangeResult where
  response : Option (List RR)
  rtt : Int
  err : Option (List Char)
deriving DecidableEq

/-- `PlainDNSClient.Query`: build the result up front (server, RTT,
timestamp, allocated-empty answers), return it alongside a wrapped
error on exchange failure or nil response, else fill in the extracted
answers. -/
def plainQuery (resolver domain : List Char) (queryTime : Int)
    (ex : ExchangeResult) : Option QueryResult × Option (List Char) :=
  let result : QueryResult :=
    { domain := domain, response := ex.response, rtt := ex.rtt,
      server := resolver, error := ex.err, queryTime := queryTime,
      answers := some [] }
  match ex.err with
  | some e => (some result, some (str "DNS query failed: " ++ e))
  | none =>
    match ex.response with
    | none => (some result, some (str "no response received"))
    | some rrs =>
      (some { result with answers := some (answersOf rrs) }, none)

/-- `DoTClient.Query`: identical to the plain client up to the server
address and error wrapping. -/
def dotQuery (serverAddr domain : List Char) (queryTime : Int)
    (ex : ExchangeResult) : Option QueryResult × Option (List Char) :=
  let result : QueryResult :=
    { domain := domain, response := ex.response, rtt := ex.rtt,
      server := serverAddr, error := ex.err, queryTime := queryTime,
      answers := some [] }
  match ex.err with
  | some e => (some result, some (str "DoT query failed: " ++ e))
  | none =>
    match ex.response with
    | none => (some result, some (str "no response received"))
    | some rrs =>
      (some { result with answers := some (answersOf rrs) }, none)

/-- Where a DoH query can fail (or succeed): packing the message,
building the HTTP request, the HTTP round trip itself, a non-200
status, reading the body, unpacking the response, or success. -/
inductive DoHOutcome
  | packFail (e : List Char)
  | reqFail (e : List Char)
  | doFail (e : List Char)
  | httpError (status : Nat) (body : List Char)
  | readFail (e : List Char)
  | unpackFail (e : List Char)
  | ok (msg : List RR)
deriving DecidableEq

/-- The DoH failure modes that happen at or after the HTTP exchange
(the ones for which `DoHClient.Query` builds a partial result struct
rather than returning a nil result). -/
def dohExchangeFailure : DoHOutcome → Bool
  | .doFail _ => true
  | .httpError _ _ => true
  | .readFail _ => true
  | .unpackFail _ => true
  | _ => false

/-- `DoHClient.Query`: each failure branch builds a fresh literal
`QueryResult` naming only some fields, so the unnamed fields keep
their Go zero values (`Server` empty, `Answers` nil, and `RTT` zero
when the HTTP request itself fails). -/
def dohQuery (serverURL domain : List Char) (queryTime rtt : Int)
    (oc : DoHOutcome) : Option QueryResult × Option (List Char) :=
  match oc with
  | .packFail e => (none, some (str "failed to pack DNS message: " ++ e))
  | .reqFail e => (none, some (str "failed to create HTTP request: " ++ e))
  | .doFail e =>
    (some { domain := domain, response := none, rtt := 0, server := [],
            error := some e, answers := none, queryTime := queryTime },
     some (str "HTTP request failed: " ++ e))
  | .httpError status body =>
    (some { domain := domain, response := none, rtt := rtt, server := [],
            error := some (str "HTTP error " ++ body), answers := none,
            queryTime := queryTime },
     some (str "server returned non-200 status"))
  | .readFail e =>
    (some { domain := domain, response := none, rtt := rtt, server := [],
            error := some e, answers := none, queryTime := queryTime },
     some (str "failed to read response: " ++ e))
  | .unpackFail e =>
    (some { domain := domain, response := none, rtt := rtt, server := [],
            error := some e, answers := none, queryTime := queryTime },
     some (str "failed to unpack DNS response: " ++ e))
  | .ok rrs =>
    (some { domain := domain, response := some rrs, rtt := rtt,
            server := serverURL, error := none,
            answers := some (answersOf rrs), queryTime := queryTime },
     none)

/-! ## Retry wrapper (`PlainDNSClient.QueryWithRetry`) -/

/-- What one retry attempt observes: cancellation before the attempt,
whether the query succeeds, its error text when it fails, and
cancellation during the backoff wait. -/
structure AttemptEvent where
  cancelledBefore : Bool
  ok : Bool
  err : List Char
  cancelledDuringBackoff : Bool

/-- How `QueryWithRetry` ends: first success (recording the 0-indexed
attempt number), a context cancellation, or exhaustion with the last
attempt's error. -/
inductive RetryOutcome
  | success (attempt : Nat)
  | cancelled
  | exhausted (lastErr : List Char)
deriving DecidableEq

/-- `PlainDNSClient.QueryWithRetry` from attempt number `attempt`
onward: returns the outcome, the number of query attempts performed,
and the list of backoff waits (in seconds) actually slept. -/
def retryFrom (ev : Nat → AttemptEvent) (maxRetries attempt : Nat) :
    RetryOutcome × Nat × List Nat :=
  if (ev attempt).cancelledBefore then (.cancelled, 0, [])
  else if (ev attempt).ok then (.success attempt, 1, [])
  else if h : attempt < maxRetries then
    if (ev attempt).cancelledDuringBackoff then (.cancelled, 1, [attempt + 1])
    else
      let r := retryFrom ev maxRetries (attempt + 1)
      (r.1, r.2.1 + 1, (attempt + 1) :: r.2.2)
  else (.exhausted (ev attempt).err, 1, [])
termination_by maxRetries - attempt
decreasing_by omega

/-- A concrete attempt trace: attempt 0 fails, every later attempt
succeeds, never cancelled. -/
def evFailThenOk (i : Nat) : AttemptEvent :=
  if i = 0 then ⟨false, false, str "timeout", false⟩
  else ⟨false, true, [], false⟩

/-! ### Generator lemmas -/

theorem bytesBits_length (bs : List Nat) : (bytesBits bs).length = 8 * bs.length := by
  induction bs with
  | nil => rfl
  | cons b bs ih => simp [bytesBits, byteBits, ih]; ring

theorem chunk5_length : ∀ (n : Nat) (l : List Bool), l.length ≤ n →
    (chunk5 n l).length = (l.length + 4) / 5 := by
  intro n
  induction n with
  | zero =>
    intro l hl
    have : l = [] := List.length_eq_zero.mp (Nat.le_zero.mp hl)
    subst this; rfl
  | succ n ih =>
    intro l hl
    match l with
    | [] => rfl
    | a :: as =>
      have hdrop : ((a :: as).drop 5).length = (a :: as).length - 5 := by
        simp [List.length_drop]
      have hle : ((a :: as).drop 5).length ≤ n := by
        rw [hdrop]; simp at hl ⊢; omega
      have := ih ((a :: as).drop 5) hle
      simp only [chunk5, List.length_cons, this, hdrop]
      omega

theorem chunk5_mem_length_le : ∀ (n : Nat) (l c : List Bool),
    c ∈ chunk5 n l → c.length ≤ 5 := by
  intro n
  induction n with
  | zero => intro l c hc; simp [chunk5] at hc
  | succ n ih =>
    intro l c hc
    match l with
    | [] => simp [chunk5] at hc
    | a :: as =>
      simp only [chunk5, List.mem_cons] at hc
      rcases hc with hc | hc
      · subst hc; simp
      · exact ih _ _ hc

theorem bitsVal_lt (bs : List Bool) : bitsVal bs < 2 ^ bs.length := by
  induction bs with
  | nil => simp [bitsVal]
  | cons b bs ih =>
    simp only [bitsVal, List.length_cons, pow_succ]
    cases b <;> simp <;> omega

theorem getD_mem_of_lt (l : List Char) (i : Nat) (d : Char) (h : i < l.length) :
    l.getD i d ∈ l := by
  induction l generalizing i with
  | nil => simp at h
  | cons a as ih =>
    cases i with
    | zero => simp [List.getD]
    | succ i =>
      simp only [List.getD_cons_succ]
      exact List.mem_cons_of_mem _ (ih i (by simpa using h))

theorem base32Encode_length (bytes : List Nat) :
    (base32Encode bytes).length = (8 * bytes.length + 4) / 5 := by
  have hbits := bytesBits_length bytes
  simp only [base32Encode, List.length_map]
  rw [chunk5_length _ _ le_rfl]
  simp only [pad5, List.length_append, List.length_replicate, hbits]
  omega

theorem base32Encode_mem (bytes : List Nat) (c : Char) (hc : c ∈ base32Encode bytes) :
    c ∈ upAlphabet := by
  simp only [base32Encode, List.mem_map] at hc
  obtain ⟨chunk, hchunk, rfl⟩ := hc
  have hlen : chunk.length ≤ 5 := chunk5_mem_length_le _ _ _ hchunk
  have hval : bitsVal chunk < 32 := by
    have := bitsVal_lt chunk
    have h2 : (2 : Nat) ^ chunk.length ≤ 2 ^ 5 :=
      Nat.pow_le_pow_right (by norm_num) hlen
    omega
  have h32 : upAlphabet.length = 32 := by decide
  exact getD_mem_of_lt _ _ _ (by omega)

theorem toLower_mem_lowAlphabet (c : Char) (hc : c ∈ upAlphabet) :
    c.toLower ∈ lowAlphabet := by
  fin_cases hc <;> decide

theorem randomLength_mem (minL maxL draw : Nat) (h2 : minL ≤ maxL)
    (hd : draw < maxL - minL + 1) :
    minL ≤ randomLength minL maxL draw ∧ randomLength minL maxL draw ≤ maxL := by
  unfold randomLength
  split <;> omega

/-- The bytes-needed formula never undershoots: base-32 encoding of
`(L*5)/8 + 1` bytes yields at least `L` characters. -/
theorem encodeLen_ge (L : Nat) : L ≤ (8 * bytesNeeded L + 4) / 5 := by
  unfold bytesNeeded
  omega

/-- C3: for valid bounds `1 ≤ min ≤ max ≤ 63`, every successful
`Generate` call returns a string whose length is exactly the randomly
chosen target length (hence in `[min, max]`, never shortened by the
bytes-needed formula) and whose characters are drawn only from
lowercase `a`-`z` and digits `2`-`7`. -/
theorem generate_length_and_alphabet
    (minL maxL draw : Nat) (bytes : List Nat)
    (h1 : 1 ≤ minL) (h2 : minL ≤ maxL) (h3 : maxL ≤ 63)
    (hd : draw < maxL - minL + 1)
    (hb : bytes.length = bytesNeeded (randomLength minL maxL draw)) :
    (generate minL maxL draw bytes).length = randomLength minL maxL draw ∧
    minL ≤ (generate minL maxL draw bytes).length ∧
    (generate minL maxL draw bytes).length ≤ maxL ∧
    ∀ c ∈ generate minL maxL draw bytes, c ∈ lowAlphabet := by
  obtain ⟨hLmin, hLmax⟩ := randomLength_mem minL maxL draw h2 hd
  have henc : (base32Encode bytes).length =
      (8 * bytesNeeded (randomLength minL maxL draw) + 4) / 5 := by
    rw [base32Encode_length, hb]
  have hge : randomLength minL maxL draw ≤ (base32Encode bytes).length := by
    rw [henc]; exact encodeLen_ge _
  have hlen : (generate minL maxL draw bytes).length = randomLength minL maxL draw := by
    simp only [generate, List.length_take, List.length_map]
    omega
  refine ⟨hlen, by omega, by omega, ?_⟩
  intro c hc
  simp only [generate] at hc
  have hc' : c ∈ (base32Encode bytes).map Char.toLower :=
    List.mem_of_mem_take hc
  simp only [List.mem_map] at hc'
  obtain ⟨c', hc', rfl⟩ := hc'
  exact toLower_mem_lowAlphabet c' (base32Encode_mem bytes c' hc')

/-- Witness for C3 at `min = max = 1`, `draw = 0`, one random byte. -/
theorem generate_length_and_alphabet_witness :
    (generate 1 1 0 [0]).length = 1 ∧
    ∀ c ∈ generate 1 1 0 [0], c ∈ lowAlphabet := by
  have h := generate_length_and_alphabet 1 1 0 [0]
    (by decide) (by decide) (by decide) (by decide) (by decide)
  exact ⟨h.1, h.2.2.2⟩

/-- C4: `GenerateWithDomain` fails exactly when
`len(label) + 1 + len(domain) > 253`, and otherwise returns
`label + "." + domain` unchanged. -/
theorem generateWithDomain_spec (subdomain domain : List Char) :
    (generateWithDomain subdomain domain = none ↔
      subdomain.length + 1 + domain.length > 253) ∧
    ∀ out, generateWithDomain subdomain domain = some out →
      out = subdomain ++ '.' :: domain := by
  constructor
  · simp only [generateWithDomain]
    split <;> rename_i h <;>
      simp only [List.length_append, List.length_cons] at h <;> simp <;> omega
  · intro out hout
    simp only [generateWithDomain] at hout
    split at hout
    · exact absurd hout (by simp)
    · exact (Option.some.inj hout).symm

/-- Witness for C4: a short label and domain combine unchanged. -/
theorem generateWithDomain_spec_witness :
    str "abc.example.com" = str "abc" ++ '.' :: str "example.com" :=
  (generateWithDomain_spec (str "abc") (str "example.com")).2
    (str "abc.example.com") (by decide)

/-! ### Responder theorems -/

/-- C1: with domain `"timeserversync.test"`, response IP `127.0.0.1`
and TTL 60, every type-A query whose name is the served domain or a
subdomain of it yields exactly one A answer carrying `127.0.0.1` and
TTL 60 with response code success, while a type-A query on
`"other.test"` yields zero answers and response code name-error. -/
theorem server_A_query_spec (s : Server) (name : List Char)
    (hs : newServer (str "timeserversync.test") (str "127.0.0.1") 60 = some s)
    (hname : isOurDomain s name = true) :
    serveDNS s [⟨name, .A⟩] =
      ([.A name 60 (some ⟨127, 0, 0, 1⟩)], .success) ∧
    serveDNS s [⟨str "other.test", .A⟩] = ([], .nameError) := by
  have hval : newServer (str "timeserversync.test") (str "127.0.0.1") 60 =
      some ⟨str "timeserversync.test.", .v4 127 0 0 1, 60⟩ := by decide
  rw [hval] at hs
  have hs' := Option.some.inj hs
  subst hs'
  refine ⟨?_, by decide⟩
  simp [serveDNS, handleQuestion, hname, to4]

/-- Witness for C1: the subdomain query `"xyz.timeserversync.test"`. -/
theorem server_A_query_spec_witness :
    serveDNS ⟨str "timeserversync.test.", .v4 127 0 0 1, 60⟩
      [⟨str "xyz.timeserversync.test", .A⟩] =
      ([.A (str "xyz.timeserversync.test") 60 (some ⟨127, 0, 0, 1⟩)],
       .success) :=
  (server_A_query_spec _ _ (by decide) (by decide)).1

/-- C2: for every processed query the response code is success if and
only if at least one answer record was appended; in particular an AAAA
query on the served domain yields zero answers and name-error. -/
theorem rcode_success_iff_answers (s : Server) (questions : List Question) :
    ((serveDNS s questions).2 = .success ↔ (serveDNS s questions).1 ≠ []) ∧
    ((newServer (str "timeserversync.test") (str "127.0.0.1") 60).map
      (fun s0 => serveDNS s0 [⟨str "timeserversync.test.", .AAAA⟩])) =
      some ([], .nameError) := by
  refine ⟨?_, by decide⟩
  simp only [serveDNS]
  split <;> rename_i h
  · simp only [true_iff]
    intro hnil
    rw [hnil] at h
    simp at h
  · simp only [List.length_pos] at h
    simp [h]

/-- C10: `NewServer` fails exactly when the response IP string does not
parse; it accepts a pure IPv6 address, and such a responder still
answers an authoritative type-A query with one A record whose address
field is the (here absent, `To4 = nil`) IPv4 form, with response code
success. -/
theorem newServer_parse_and_ipv6 (domain ipStr : List Char) (ttl : Nat) :
    (newServer domain ipStr ttl = none ↔ parseIP ipStr = none) ∧
    ((newServer (str "timeserversync.test") (str "::1") 60).map
      (fun s0 => serveDNS s0 [⟨str "timeserversync.test.", .A⟩])) =
      some ([.A (str "timeserversync.test.") 60 none], .success) := by
  refine ⟨?_, by decide⟩
  unfold newServer
  cases parseIP ipStr <;> simp

/-! ### Beacon theorems -/

/-- C5: `calculateDelay` with zero jitter returns exactly the base
delay; with base 5s and jitter 2s every possible draw yields a value
in `[3s, 7s]`; and whenever the jittered path is taken the result is
clamped to at least one second. -/
theorem calculateDelay_spec :
    (∀ base draw : Int, calculateDelay base 0 draw = base) ∧
    (∀ draw : Int, 0 ≤ draw → draw < 2 * (2 * second) →
      3 * second ≤ calculateDelay (5 * second) (2 * second) draw ∧
      calculateDelay (5 * second) (2 * second) draw ≤ 7 * second) ∧
    (∀ base jitter draw : Int, jitter ≠ 0 →
      second ≤ calculateDelay base jitter draw) := by
  refine ⟨fun base draw => by simp [calculateDelay], ?_, ?_⟩
  · intro draw h0 h4
    simp only [calculateDelay, second] at h4 ⊢
    split <;> rename_i hz
    · omega
    · split <;> omega
  · intro base jitter draw hj
    simp only [calculateDelay, if_neg hj, second]
    split <;> omega

/-- Witness for C5 at base 5s, jitter 2s, draw 0 (and jitter 0). -/
theorem calculateDelay_spec_witness :
    calculateDelay (5 * second) 0 0 = 5 * second ∧
    3 * second ≤ calculateDelay (5 * second) (2 * second) 0 ∧
    second ≤ calculateDelay 0 (2 * second) 5 :=
  ⟨calculateDelay_spec.1 (5 * second) 0,
   (calculateDelay_spec.2.1 0 (by norm_num) (by norm_num [second])).1,
   calculateDelay_spec.2.2 0 (2 * second) 5 (by norm_num [second])⟩

/-- C6: a cancellation observed at the loop top stops the beacon with
the current iteration count and query tally — in particular a
pre-cancelled context stops it at zero iterations and zero issued
queries — and a cancellation observed mid-delay stops it reporting the
just-completed iteration. -/
theorem beacon_cancellation (ev : BeaconEvent) (rest : List BeaconEvent)
    (qc qi : Nat) :
    (ev.cancelledAtTop = true →
      beaconRun qc qi (ev :: rest) = .stopped qc qi) ∧
    (ev.cancelledAtTop = false → ev.genOk = true →
      ev.cancelledMidDelay = true →
      beaconRun qc qi (ev :: rest) = .stopped (qc + 1) (qi + 1)) := by
  constructor
  · intro h; simp [beaconRun, h]
  · intro h1 h2 h3; simp [beaconRun, h1, h2, h3]

/-- Witness for C6: a pre-cancelled context gives zero queries and a
zero reported count. -/
theorem beacon_cancellation_witness :
    beaconRun 0 0 [⟨true, true, false⟩] = .stopped 0 0 :=
  (beacon_cancellation ⟨true, true, false⟩ [] 0 0).1 rfl

/-- C9: in an iteration where subdomain generation fails the loop still
increments its iteration counter, issues no query, and proceeds
directly to the next iteration — the right-hand side does not consult
the event's mid-delay cancellation flag, so the jittered sleep is
skipped entirely. -/
theorem beacon_genFailure_skips_delay (ev : BeaconEvent)
    (rest : List BeaconEvent) (qc qi : Nat)
    (htop : ev.cancelledAtTop = false) (hgen : ev.genOk = false) :
    beaconRun qc qi (ev :: rest) = beaconRun (qc + 1) qi rest := by
  simp [beaconRun, htop, hgen]

/-- Witness for C9: a generation failure with cancellation pending
mid-delay still falls through to the next iteration. -/
theorem beacon_genFailure_skips_delay_witness :
    beaconRun 0 0 [⟨false, false, true⟩] = beaconRun 1 0 [] :=
  beacon_genFailure_skips_delay ⟨false, false, true⟩ [] 0 0 rfl rfl

/-! ### Client theorems -/

/-- C7 counterexample: when the DoH client's HTTPS POST itself fails,
the returned `QueryResult` leaves the server field empty, the RTT at
its zero value and the answer list nil (not an allocated empty list),
so the populated-telemetry and empty-not-nil guarantees the claim
makes for all three clients fail for the DoH client. -/
theorem dohQuery_failure_counterexample :
    (dohQuery (str "https://127.0.0.1:8443/dns-query")
        (str "a.timeserversync.test") 5 7
        (.doFail (str "connection refused"))).1.map
      (fun r => (r.server, r.rtt, r.answers)) =
      some ([], 0, none) := by
  decide

/-- C7 amended: the plain and DoT clients return, on every failed
exchange, a non-nil `QueryResult` with the error set and RTT, server
address, timestamp and an allocated empty answer list populated; the
DoH client returns a non-nil result with the error and timestamp set
for failures at or after the HTTP exchange, but leaves the server
field empty and the answer list nil there. -/
theorem clients_failure_telemetry
    (resolver serverAddr serverURL domain : List Char) (t rtt0 : Int)
    (ex : ExchangeResult) (e : List Char) (oc : DoHOutcome) :
    (ex.err = some e →
      (plainQuery resolver domain t ex).1 =
        some { domain := domain, response := ex.response, rtt := ex.rtt,
               server := resolver, error := some e, queryTime := t,
               answers := some [] } ∧
      (plainQuery resolver domain t ex).2.isSome = true) ∧
    (ex.err = some e →
      (dotQuery serverAddr domain t ex).1 =
        some { domain := domain, response := ex.response, rtt := ex.rtt,
               server := serverAddr, error := some e, queryTime := t,
               answers := some [] } ∧
      (dotQuery serverAddr domain t ex).2.isSome = true) ∧
    (dohExchangeFailure oc = true →
      ∃ r, (dohQuery serverURL domain t rtt0 oc).1 = some r ∧
        r.error.isSome = true ∧ r.queryTime = t ∧
        r.server = [] ∧ r.answers = none) := by
  refine ⟨?_, ?_, ?_⟩
  · intro he; simp [plainQuery, he]
  · intro he; simp [dotQuery, he]
  · intro hoc
    cases oc <;> simp [dohExchangeFailure] at hoc <;> simp [dohQuery]

/-- Witness for C7 (amended) on a concrete timed-out plain exchange
and a concrete DoH HTTP 500. -/
theorem clients_failure_telemetry_witness :
    (plainQuery (str "127.0.0.1:15353") (str "a.test") 3
        ⟨none, 2, some (str "timeout")⟩).1 =
      some { domain := str "a.test", response := none, rtt := 2,
             server := str "127.0.0.1:15353", error := some (str "timeout"),
             queryTime := 3, answers := some [] } ∧
    ∃ r, (dohQuery (str "https://x/dns-query") (str "a.test") 3 2
        (.httpError 500 (str "oops"))).1 = some r ∧
      r.error.isSome = true ∧ r.queryTime = 3 ∧
      r.server = [] ∧ r.answers = none := by
  have h := clients_failure_telemetry (str "127.0.0.1:15353") []
    (str "https://x/dns-query") (str "a.test") 3 2
    ⟨none, 2, some (str "timeout")⟩ (str "timeout")
    (.httpError 500 (str "oops"))
  exact ⟨(h.1 rfl).1, h.2.2 rfl⟩

/-! ### Retry theorems -/

theorem retryFrom_attempts_le (ev : Nat → AttemptEvent) (m : Nat) :
    ∀ d a, a ≤ m → m + 1 - a ≤ d → (retryFrom ev m a).2.1 ≤ m + 1 - a := by
  intro d
  induction d with
  | zero => intro a ha hd; omega
  | succ d ih =>
    intro a ha hd
    rw [retryFrom]
    split_ifs with h1 h2 h3 h4
    · simp
    · simp; omega
    · simp; omega
    · have := ih (a + 1) (by omega) (by omega)
      simp only []
      omega
    · simp; omega

/-- C8: `QueryWithRetry` makes at most `maxRetries + 1` attempts; a
cancellation observed before an attempt returns the context error with
no further query; a successful attempt returns immediately; a failed
non-last attempt waits exactly `attempt + 1` seconds (or returns the
context error if cancelled during that wait) before continuing; and a
failed last attempt exhausts the budget reporting the last error. -/
theorem queryWithRetry_spec (ev : Nat → AttemptEvent) (m a : Nat) :
    (a ≤ m → (retryFrom ev m a).2.1 ≤ m + 1 - a) ∧
    ((ev a).cancelledBefore = true →
      retryFrom ev m a = (.cancelled, 0, [])) ∧
    ((ev a).cancelledBefore = false → (ev a).ok = true →
      retryFrom ev m a = (.success a, 1, [])) ∧
    ((ev a).cancelledBefore = false → (ev a).ok = false → a < m →
      (ev a).cancelledDuringBackoff = true →
      retryFrom ev m a = (.cancelled, 1, [a + 1])) ∧
    ((ev a).cancelledBefore = false → (ev a).ok = false → a < m →
      (ev a).cancelledDuringBackoff = false →
      retryFrom ev m a =
        ((retryFrom ev m (a + 1)).1, (retryFrom ev m (a + 1)).2.1 + 1,
         (a + 1) :: (retryFrom ev m (a + 1)).2.2)) ∧
    ((ev a).cancelledBefore = false → (ev a).ok = false → ¬ a < m →
      retryFrom ev m a = (.exhausted (ev a).err, 1, [])) := by
  refine ⟨fun ha => retryFrom_attempts_le ev m (m + 1 - a) a ha le_rfl,
    ?_, ?_, ?_, ?_, ?_⟩
  · intro h1; rw [retryFrom]; simp [h1]
  · intro h1 h2; rw [retryFrom]; simp [h1, h2]
  · intro h1 h2 h3 h4; rw [retryFrom]; simp [h1, h2, h3, h4]
  · intro h1 h2 h3 h4; rw [retryFrom]; simp [h1, h2, h3, h4]
  · intro h1 h2 h3; rw [retryFrom]; simp [h1, h2, h3]

/-- Witness for C8: with `maxRetries = 2`, a failure at attempt 0
followed by a success at attempt 1 gives two attempts and a single
one-second backoff wait. -/
theorem queryWithRetry_spec_witness :
    retryFrom evFailThenOk 2 0 = (.success 1, 2, [1]) := by
  have h5 := (queryWithRetry_spec evFailThenOk 2 0).2.2.2.2.1
    rfl rfl (by norm_num) rfl
  have h3 := (queryWithRetry_spec evFailThenOk 2 1).2.2.1 rfl rfl
  rw [h5, h3]

end DNSSim
